import Mathlib

/-!
Formal model of the decision-gating and order-execution pipeline of the
Money_Agent automated trading program (a shallow embedding of the Python
source in Lean 4).

Conventions used throughout:
* Python floats are modelled as rationals (`ℚ`); Python's `round(x, n)`
  (banker's rounding to `n` decimal places) is `pyRound`.
* Exchange I/O is modelled by an explicit environment record whose fields give
  the outcome of each network call; a raised exception is an `Except.error`.
* Functions that may submit orders additionally return the list of submitted
  orders, so that "no order was submitted" is a statement about the model.
* Python truthiness of a possibly missing number (`x or y`) is `pyOrQ`:
  `None` and `0` are falsy.
-/

namespace MoneyAgent

/-- Decidable equality for `Except`, so concrete runs of fallible
functions can be checked by `decide`. -/
instance {α β : Type} [DecidableEq α] [DecidableEq β] :
    DecidableEq (Except α β) := fun a b =>
  match a, b with
  | .ok x, .ok y =>
      if h : x = y then .isTrue (by rw [h]) else .isFalse (by simp [h])
  | .error x, .error y =>
      if h : x = y then .isTrue (by rw [h]) else .isFalse (by simp [h])
  | .ok _, .error _ => .isFalse (by simp)
  | .error _, .ok _ => .isFalse (by simp)

/-- The four trading signals of `TradingDecision.signal`
(`schemas.py`, `Literal["buy_to_enter", "sell_to_enter", "hold", "close"]`). -/
inductive Signal
  | buy_to_enter
  | sell_to_enter
  | hold
  | close
deriving DecidableEq, Repr

/-- `signal in ['buy_to_enter', 'sell_to_enter']`. -/
def Signal.isEnter : Signal → Bool
  | .buy_to_enter => true
  | .sell_to_enter => true
  | _ => false

/-- The string value of a signal, as it appears in the Python dicts. -/
def Signal.str : Signal → String
  | .buy_to_enter => "buy_to_enter"
  | .sell_to_enter => "sell_to_enter"
  | .hold => "hold"
  | .close => "close"

/-- The coin universe of the schema's `Literal` type (`schemas.py` line 16). -/
def schemaCoins : List String :=
  ["BTC", "ETH", "SOL", "BNB", "BGB", "DOGE", "SUI", "LTC"]

/-- A trading decision (`schemas.TradingDecision`).  `graph.py` reads the two
trigger prices under the attribute names `profit_target` / `stop_loss`; the
schema declares them as `take_profit_price` / `stop_loss_price`.  The
embedding identifies the two namings as the same two fields. -/
structure TradingDecision where
  signal : Signal
  coin : String
  quantity : ℚ
  leverage : ℚ
  take_profit_price : ℚ
  stop_loss_price : ℚ
  invalidation_condition : String
  confidence : ℚ
  risk_usd : ℚ
  justification : String
deriving DecidableEq, Repr

/-- `schemas.TradingDecision` validation: the pydantic `Field` range
constraints together with the `validate_decision` model validator.
`Except.error` models a pydantic `ValidationError`/`ValueError` (the error
messages themselves are abbreviated; only success/failure and the mutations
matter downstream). -/
def validate_decision (d : TradingDecision) : Except String TradingDecision :=
  if d.coin ∉ schemaCoins then .error "coin not in Literal"
  else if d.quantity < 0 then .error "quantity ge=0"
  else if d.leverage < 1 ∨ 20 < d.leverage then .error "leverage range"
  else if d.take_profit_price < 0 then .error "take_profit_price ge=0"
  else if d.stop_loss_price < 0 then .error "stop_loss_price ge=0"
  else if d.confidence < 0 ∨ 1 < d.confidence then .error "confidence range"
  else if d.risk_usd < 0 then .error "risk_usd ge=0"
  else if d.signal = .hold then
    .ok { d with quantity := 0, leverage := 1 }
  else if d.signal.isEnter then
    if d.take_profit_price ≤ 0 then .error "enter requires take_profit_price > 0"
    else if d.stop_loss_price ≤ 0 then .error "enter requires stop_loss_price > 0"
    else if d.quantity ≤ 0 then .error "enter requires quantity > 0"
    else .ok d
  else .ok d

/-- The hold decision built by `get_decision`'s error fallback
(`graph.py` lines 176-187). -/
def fallbackHoldDecision (err : String) : TradingDecision :=
  { signal := .hold, coin := "", quantity := 0, leverage := 1,
    take_profit_price := 0, stop_loss_price := 0,
    invalidation_condition := "N/A", confidence := 0, risk_usd := 0,
    justification := "Error getting decision: " ++ err }

/-- The justification annotation of the missing-trigger correction
(`graph.py` line 125). -/
def correctionNote (orig : String) : String :=
  "[系统修正] LLM返回的决策缺少有效止盈止损，已改为持有。原因: " ++ orig

/-- The missing-trigger correction applied to the oracle's decision
(`graph.py` lines 115-125): an enter signal without both strictly positive
trigger prices is forced to hold. -/
def triggerCorrection (d : TradingDecision) : TradingDecision :=
  if d.signal.isEnter ∧ (d.take_profit_price ≤ 0 ∨ d.stop_loss_price ≤ 0) then
    { d with signal := .hold, coin := "", quantity := 0, leverage := 1,
             take_profit_price := 0, stop_loss_price := 0,
             justification := correctionNote d.justification }
  else d

/-- The justification annotation of the active-symbol restriction
(`graph.py` line 166). -/
def restrictionNote (origSignal : Signal) (origCoin : String)
    (active : List String) (orig : String) : String :=
  "[系统限制] 原计划 " ++ origSignal.str ++ " " ++ origCoin ++
    "，但当前低资金模式只允许交易 " ++ String.intercalate ", " active ++ "。" ++ orig

/-- The active-symbol gate (`graph.py` lines 147-168): an enter signal whose
coin is not in the active list is forced to hold.  Note that the source
rewrites only `signal`, `coin`, `quantity` and `justification` here. -/
def activeSymbolGate (active : List String) (d : TradingDecision) : TradingDecision :=
  if d.signal.isEnter ∧ d.coin ∉ active then
    { d with signal := .hold, coin := "", quantity := 0,
             justification := restrictionNote d.signal d.coin active d.justification }
  else d

/-- The post-oracle portion of `get_decision` (`graph.py` lines 115-168):
the missing-trigger correction followed by the active-symbol gate. -/
def decisionPipeline (active : List String) (d : TradingDecision) : TradingDecision :=
  activeSymbolGate active (triggerCorrection d)

set_option maxHeartbeats 1000000 in
/-- An enter decision accepted unchanged by the schema validator has strictly
positive trigger prices and quantity. -/
theorem validate_ok_enter_triggers (d : TradingDecision)
    (hval : validate_decision d = Except.ok d) (hent : d.signal.isEnter = true) :
    0 < d.take_profit_price ∧ 0 < d.stop_loss_price ∧ 0 < d.quantity := by
  unfold validate_decision at hval
  split_ifs at hval with h1 h2 h3 h4 h5 h6 h7 h8 h9 h10 h11
  · rw [h8] at hent; exact absurd hent (by decide)
  · exact ⟨lt_of_not_le h9, lt_of_not_le h10, lt_of_not_le h11⟩

set_option maxHeartbeats 1000000 in
/-- A hold decision accepted unchanged by the schema validator has
quantity 0 (the validator rewrites the quantity to 0). -/
theorem validate_ok_hold_quantity (d : TradingDecision)
    (hval : validate_decision d = Except.ok d) (hh : d.signal = Signal.hold) :
    d.quantity = 0 := by
  unfold validate_decision at hval
  split_ifs at hval with h1 h2 h3 h4 h5 h6 h7
  have h := Except.ok.inj hval
  simpa using (congrArg TradingDecision.quantity h).symm

/-- The missing-trigger correction leaves a schema-validated decision
unchanged (the validator already rejects enter decisions without positive
triggers). -/
theorem triggerCorrection_validated (d : TradingDecision)
    (hval : validate_decision d = Except.ok d) : triggerCorrection d = d := by
  unfold triggerCorrection
  split_ifs with h
  · obtain ⟨he, hor⟩ := h
    obtain ⟨htp, hsl, -⟩ := validate_ok_enter_triggers d hval he
    rcases hor with h | h
    · exact absurd h (not_le.mpr htp)
    · exact absurd h (not_le.mpr hsl)
  · rfl

/-- Claim C5 (confirmed).  For every decision and every active-symbol set: an
enter signal (`buy_to_enter` or `sell_to_enter`) whose coin is outside the
active set is rewritten by the active-symbol gate to `signal = hold` with the
coin cleared to the empty string, quantity set to `0`, and a human-readable
restriction reason prepended to the justification; `close` and `hold`
decisions pass through the gate unchanged regardless of their coin
(`graph.py` lines 139-168).  The enter case assumes the decision passed the
schema validator unchanged, which is how decisions reach this gate. -/
theorem c5_active_symbol_gate (active : List String) (d : TradingDecision) :
    (validate_decision d = Except.ok d → d.signal.isEnter = true → d.coin ∉ active →
      decisionPipeline active d =
        { d with signal := Signal.hold, coin := "", quantity := 0,
                 justification := restrictionNote d.signal d.coin active d.justification })
    ∧ ((d.signal = Signal.close ∨ d.signal = Signal.hold) →
        decisionPipeline active d = d) := by
  constructor
  · intro hval he hc
    unfold decisionPipeline
    rw [triggerCorrection_validated d hval]
    unfold activeSymbolGate
    rw [if_pos ⟨he, hc⟩]
  · intro hcs
    have he : d.signal.isEnter = false := by
      rcases hcs with h | h <;> rw [h] <;> rfl
    simp [decisionPipeline, triggerCorrection, activeSymbolGate, he]

/-- A concrete schema-valid enter decision used to exercise the gate. -/
def c5dec : TradingDecision :=
  { signal := .buy_to_enter, coin := "BTC", quantity := 1, leverage := 5,
    take_profit_price := 110, stop_loss_price := 90,
    invalidation_condition := "n/a", confidence := 9/10, risk_usd := 50,
    justification := "orig" }

/-- Witness for C5: with active coins `["DOGE"]`, a `buy_to_enter` decision on
`"BTC"` is rewritten to hold with the restriction note prepended. -/
theorem c5_witness :
    decisionPipeline ["DOGE"] c5dec =
      { c5dec with signal := Signal.hold, coin := "", quantity := 0,
                   justification :=
                     restrictionNote Signal.buy_to_enter "BTC" ["DOGE"] "orig" } :=
  (c5_active_symbol_gate ["DOGE"] c5dec).1
    (by norm_num [validate_decision, c5dec, schemaCoins]; decide)
    (by decide) (by decide)

/-- A concrete schema-valid enter decision with leverage 5, used to show the
active-symbol gate does not reset the leverage. -/
def c2dec : TradingDecision :=
  { signal := .buy_to_enter, coin := "BTC", quantity := 1, leverage := 5,
    take_profit_price := 110, stop_loss_price := 90,
    invalidation_condition := "n/a", confidence := 9/10, risk_usd := 50,
    justification := "j" }

/-- Counterexample to claim C2 as stated: a `buy_to_enter` decision on a coin
outside the active set is downgraded to hold by the active-symbol gate, yet
keeps its original leverage of 5 (the gate rewrites only signal, coin,
quantity and justification), so not every emitted hold decision has
leverage 1. -/
theorem c2_counterexample :
    (decisionPipeline ["DOGE"] c2dec).signal = Signal.hold ∧
    (decisionPipeline ["DOGE"] c2dec).leverage ≠ 1 := by
  norm_num [decisionPipeline, triggerCorrection, activeSymbolGate, c2dec,
    Signal.isEnter]
  decide

/-- Claim C2 (corrected).  Every decision emitted by the decision stage with
`signal = hold` has `quantity = 0`, and the holds produced by the
missing-trigger correction and by the error fallback additionally have
`leverage = 1`; but a decision downgraded to hold by the active-symbol gate
keeps the oracle's requested leverage unchanged (`graph.py` lines 115-187,
`schemas.py` lines 62-96). -/
theorem c2_hold_shape (active : List String) (d : TradingDecision) (err : String) :
    (validate_decision d = Except.ok d →
        (decisionPipeline active d).signal = Signal.hold →
        (decisionPipeline active d).quantity = 0)
    ∧ ((fallbackHoldDecision err).signal = Signal.hold ∧
        (fallbackHoldDecision err).quantity = 0 ∧
        (fallbackHoldDecision err).leverage = 1)
    ∧ (d.signal.isEnter = true → d.take_profit_price ≤ 0 ∨ d.stop_loss_price ≤ 0 →
        (triggerCorrection d).signal = Signal.hold ∧
        (triggerCorrection d).quantity = 0 ∧ (triggerCorrection d).leverage = 1)
    ∧ (validate_decision d = Except.ok d → d.signal.isEnter = true → d.coin ∉ active →
        (decisionPipeline active d).signal = Signal.hold ∧
        (decisionPipeline active d).leverage = d.leverage) := by
  refine ⟨?_, ⟨rfl, rfl, rfl⟩, ?_, ?_⟩
  · intro hval hsig
    have hid : triggerCorrection d = d := triggerCorrection_validated d hval
    unfold decisionPipeline at hsig ⊢
    rw [hid] at hsig ⊢
    unfold activeSymbolGate at hsig ⊢
    split_ifs at hsig ⊢ with h
    · rfl
    · exact validate_ok_hold_quantity d hval hsig
  · intro he hor
    unfold triggerCorrection
    rw [if_pos ⟨he, hor⟩]
    exact ⟨rfl, rfl, rfl⟩
  · intro hval he hc
    unfold decisionPipeline
    rw [triggerCorrection_validated d hval]
    unfold activeSymbolGate
    rw [if_pos ⟨he, hc⟩]
    exact ⟨rfl, rfl⟩

/-- Witness for C2 (amended): instantiated at a concrete validated decision,
active set and error string. -/
theorem c2_witness :
    (decisionPipeline ["DOGE"] c2dec).signal = Signal.hold ∧
    (decisionPipeline ["DOGE"] c2dec).leverage = c2dec.leverage :=
  (c2_hold_shape ["DOGE"] c2dec "boom").2.2.2
    (by norm_num [validate_decision, c2dec, schemaCoins]; decide)
    (by decide) (by decide)

/-! ## Trend-consistency validation (`utils/trend_validation.py`) -/

/-- The per-symbol technical indicators extracted from the formatted market
string by `extract_market_indicators` (`trend_validation.py` lines 5-87).
The regex extraction over the rendered report is abstracted as an input:
a `none` field models a key absent from the extracted dict, and an overall
`Option ExtractedIndicators` argument models extraction failure
(`extract_market_indicators` returning `None`). -/
structure ExtractedIndicators where
  current_price : Option ℚ := none
  ema20_3m : Option ℚ := none
  macd_3m : Option ℚ := none
  rsi_7_3m : Option ℚ := none
  ema20_4h : Option ℚ := none
  ema50_4h : Option ℚ := none
  macd_4h : Option ℚ := none
  rsi_14_4h : Option ℚ := none
deriving DecidableEq, Repr

/-- A trade-ledger entry as inspected by the loss-streak check:
`pnl? = some p` models an entry whose `result` dict carries a resolved `pnl`
value `p`; `none` models an entry without one. -/
structure TradeRecord where
  pnl? : Option ℚ
deriving DecidableEq, Repr

/-- The warnings `validate_trend_consistency` can append; each constructor
stands for one of the source's message strings, carrying the interpolated
value. -/
inductive TrendWarning
  | noIndicators (coin : String)
  | missingKeys (keys : List String)
  | longInDowntrendLowConf (conf : ℚ)
  | longInDowntrendHighConf (conf : ℚ)
  | shortInUptrendLowConf (conf : ℚ)
  | shortInUptrendHighConf (conf : ℚ)
  | rsiOversoldLong (rsi : ℚ)
  | threeConsecutiveLosses
deriving DecidableEq, Repr

/-- The result dict of `validate_trend_consistency` (its informational
`trend_info` sub-dict is omitted: nothing downstream reads it). -/
structure TrendValidationResult where
  valid : Bool
  warnings : List TrendWarning
deriving DecidableEq, Repr

/-- The 4h master-trend label (`trend_validation.py` lines 136-138). -/
inductive Trend
  | up
  | down
  | neutral
deriving DecidableEq, Repr

/-- `trend_4h = up if (ema20 > ema50 and macd > 0) else down if (ema20 < ema50
and macd < 0) else neutral`. -/
def trend4h (ema20 ema50 macd : ℚ) : Trend :=
  if ema50 < ema20 ∧ 0 < macd then .up
  else if ema20 < ema50 ∧ macd < 0 then .down
  else .neutral

/-- The loss-streak condition (`trend_validation.py` lines 188-195):
`len(trade_history) >= 3` and `all(t..pnl < 0 for t in trade_history[-3:]
if resolved)`.  Note the `all` ranges over the resolved entries among the
last three ledger entries and is vacuously true when none of them carries a
resolved PnL. -/
def lossStreakFires (trade_history : List TradeRecord) : Bool :=
  decide (3 ≤ trade_history.length) &&
    (trade_history.drop (trade_history.length - 3)).all fun t =>
      match t.pnl? with
      | some p => decide (p < 0)
      | none => true

/-- `validate_trend_consistency` (`trend_validation.py` lines 90-203), with
the market-string extraction abstracted into the `indicators?` argument.
Only the decision's signal, coin and confidence are read by the source. -/
def validate_trend_consistency (d : TradingDecision)
    (indicators? : Option ExtractedIndicators)
    (trade_history : List TradeRecord) : TrendValidationResult :=
  if d.signal.isEnter then
    if d.coin = "" then ⟨true, []⟩
    else
      match indicators? with
      | none => ⟨true, [.noIndicators d.coin]⟩
      | some ind =>
        let missing : List String :=
          (if ind.ema20_4h = none then ["ema20_4h"] else []) ++
          (if ind.ema50_4h = none then ["ema50_4h"] else []) ++
          (if ind.macd_4h = none then ["macd_4h"] else [])
        match ind.ema20_4h, ind.ema50_4h, ind.macd_4h with
        | some e20, some e50, some m4 =>
          let t := trend4h e20 e50 m4
          let conf := d.confidence
          let r1 : Bool × List TrendWarning :=
            if t = .down ∧ d.signal = .buy_to_enter then
              if conf < 7/10 then (false, [.longInDowntrendLowConf conf])
              else (true, [.longInDowntrendHighConf conf])
            else (true, [])
          let r2 : Bool × List TrendWarning :=
            if t = .up ∧ d.signal = .sell_to_enter then
              if conf < 7/10 then (false, [.shortInUptrendLowConf conf])
              else (true, [.shortInUptrendHighConf conf])
            else (true, [])
          let r3 : List TrendWarning :=
            match ind.rsi_7_3m with
            | some r =>
              if t = .down ∧ r < 30 ∧ d.signal = .buy_to_enter then
                [.rsiOversoldLong r]
              else []
            | none => []
          let r4 : Bool × List TrendWarning :=
            if lossStreakFires trade_history then
              (false, [.threeConsecutiveLosses])
            else (true, [])
          ⟨r1.1 && r2.1 && r4.1, r1.2 ++ r2.2 ++ r3 ++ r4.2⟩
        | _, _, _ => ⟨true, [.missingKeys missing]⟩
  else ⟨true, []⟩

/-- Modelled from the spec: the risk-gate caller of
`validate_trend_consistency` is the decision stage `get_agent_decision`,
which `workflow.py` imports but whose file is not in the source tree.
Per spec §4.3, a decision rejected by a risk rule is overwritten to hold:
signal→hold, symbol→empty, quantity→0, with a human-readable reason appended
to the rationale; a decision found valid passes through unmodified. -/
def applyTrendValidation (d : TradingDecision) (vr : TrendValidationResult) :
    TradingDecision :=
  if vr.valid then d
  else { d with signal := .hold, coin := "", quantity := 0,
                justification := d.justification ++ " [risk rule rejection]" }

/-- Claim C3 (confirmed).  For a symbol whose 4-hour indicators give
EMA20 < EMA50 and MACD < 0 (a down trend), a `buy_to_enter` decision with
confidence < 0.70 is rejected by the trend-consistency rule (`valid = false`)
with the rule-violation warning recorded, and the risk gate downgrades it to
hold; the same decision with confidence ≥ 0.70 is found valid, is flagged
with the noteworthy-override warning only, and passes through the gate
unmodified.  Symmetrically for `sell_to_enter` against an up trend
(EMA20 > EMA50 and MACD > 0).  Assumes the ledger does not trip the
loss-streak breaker (`trend_validation.py` lines 130-175). -/
theorem c3_trend_consistency (d : TradingDecision) (ind : ExtractedIndicators)
    (e20 e50 m4 : ℚ) (hist : List TradeRecord)
    (h20 : ind.ema20_4h = some e20) (h50 : ind.ema50_4h = some e50)
    (hm4 : ind.macd_4h = some m4) (hcoin : d.coin ≠ "")
    (hstreak : lossStreakFires hist = false) :
    (e20 < e50 → m4 < 0 → d.signal = Signal.buy_to_enter → d.confidence < 7/10 →
      (validate_trend_consistency d (some ind) hist).valid = false ∧
      TrendWarning.longInDowntrendLowConf d.confidence
        ∈ (validate_trend_consistency d (some ind) hist).warnings ∧
      (applyTrendValidation d (validate_trend_consistency d (some ind) hist)).signal
        = Signal.hold)
    ∧ (e20 < e50 → m4 < 0 → d.signal = Signal.buy_to_enter → 7/10 ≤ d.confidence →
      (validate_trend_consistency d (some ind) hist).valid = true ∧
      TrendWarning.longInDowntrendHighConf d.confidence
        ∈ (validate_trend_consistency d (some ind) hist).warnings ∧
      applyTrendValidation d (validate_trend_consistency d (some ind) hist) = d)
    ∧ (e50 < e20 → 0 < m4 → d.signal = Signal.sell_to_enter → d.confidence < 7/10 →
      (validate_trend_consistency d (some ind) hist).valid = false ∧
      TrendWarning.shortInUptrendLowConf d.confidence
        ∈ (validate_trend_consistency d (some ind) hist).warnings ∧
      (applyTrendValidation d (validate_trend_consistency d (some ind) hist)).signal
        = Signal.hold)
    ∧ (e50 < e20 → 0 < m4 → d.signal = Signal.sell_to_enter → 7/10 ≤ d.confidence →
      (validate_trend_consistency d (some ind) hist).valid = true ∧
      TrendWarning.shortInUptrendHighConf d.confidence
        ∈ (validate_trend_consistency d (some ind) hist).warnings ∧
      applyTrendValidation d (validate_trend_consistency d (some ind) hist) = d) := by
  refine ⟨?_, ?_, ?_, ?_⟩
  · intro hlt hneg hsig hconf
    have hne : d.signal.isEnter = true := by rw [hsig]; rfl
    have hdown : trend4h e20 e50 m4 = Trend.down := by
      unfold trend4h
      rw [if_neg, if_pos ⟨hlt, hneg⟩]
      rintro ⟨a, b⟩
      exact absurd a (not_lt.mpr hlt.le)
    have hv : (validate_trend_consistency d (some ind) hist).valid = false ∧
        TrendWarning.longInDowntrendLowConf d.confidence
          ∈ (validate_trend_consistency d (some ind) hist).warnings := by
      simp only [validate_trend_consistency, hne, if_true, hcoin, if_neg, h20, h50,
        hm4, hdown, hsig, hstreak, hconf, if_pos, if_false]
      simp [Signal.isEnter]
    refine ⟨hv.1, hv.2, ?_⟩
    unfold applyTrendValidation
    rw [hv.1]
    simp
  · intro hlt hneg hsig hconf
    have hne : d.signal.isEnter = true := by rw [hsig]; rfl
    have hconf' : ¬ d.confidence < 7/10 := not_lt.mpr hconf
    have hdown : trend4h e20 e50 m4 = Trend.down := by
      unfold trend4h
      rw [if_neg, if_pos ⟨hlt, hneg⟩]
      rintro ⟨a, b⟩
      exact absurd a (not_lt.mpr hlt.le)
    have hv : (validate_trend_consistency d (some ind) hist).valid = true ∧
        TrendWarning.longInDowntrendHighConf d.confidence
          ∈ (validate_trend_consistency d (some ind) hist).warnings := by
      simp only [validate_trend_consistency, hne, if_true, hcoin, if_neg, h20, h50,
        hm4, hdown, hsig, hstreak, hconf', if_pos, if_false]
      simp [Signal.isEnter]
    refine ⟨hv.1, hv.2, ?_⟩
    unfold applyTrendValidation
    rw [hv.1]
    simp
  · intro hgt hpos hsig hconf
    have hne : d.signal.isEnter = true := by rw [hsig]; rfl
    have hup : trend4h e20 e50 m4 = Trend.up := by
      unfold trend4h
      rw [if_pos ⟨hgt, hpos⟩]
    have hv : (validate_trend_consistency d (some ind) hist).valid = false ∧
        TrendWarning.shortInUptrendLowConf d.confidence
          ∈ (validate_trend_consistency d (some ind) hist).warnings := by
      simp only [validate_trend_consistency, hne, if_true, hcoin, if_neg, h20, h50,
        hm4, hup, hsig, hstreak, hconf, if_pos, if_false]
      simp [Signal.isEnter]
    refine ⟨hv.1, hv.2, ?_⟩
    unfold applyTrendValidation
    rw [hv.1]
    simp
  · intro hgt hpos hsig hconf
    have hne : d.signal.isEnter = true := by rw [hsig]; rfl
    have hconf' : ¬ d.confidence < 7/10 := not_lt.mpr hconf
    have hup : trend4h e20 e50 m4 = Trend.up := by
      unfold trend4h
      rw [if_pos ⟨hgt, hpos⟩]
    have hv : (validate_trend_consistency d (some ind) hist).valid = true ∧
        TrendWarning.shortInUptrendHighConf d.confidence
          ∈ (validate_trend_consistency d (some ind) hist).warnings := by
      simp only [validate_trend_consistency, hne, if_true, hcoin, if_neg, h20, h50,
        hm4, hup, hsig, hstreak, hconf', if_pos, if_false]
      simp [Signal.isEnter]
    refine ⟨hv.1, hv.2, ?_⟩
    unfold applyTrendValidation
    rw [hv.1]
    simp

/-- A concrete indicator set giving a 4h down trend (EMA20 10 < EMA50 20,
MACD −1). -/
def c3ind : ExtractedIndicators :=
  { ema20_4h := some 10, ema50_4h := some 20, macd_4h := some (-1) }

/-- A concrete low-confidence enter-long decision for the down-trend market. -/
def c3dec : TradingDecision :=
  { signal := .buy_to_enter, coin := "DOGE", quantity := 5, leverage := 2,
    take_profit_price := 1/4, stop_loss_price := 1/5,
    invalidation_condition := "n/a", confidence := 1/2, risk_usd := 1,
    justification := "dip buy" }

/-- Witness for C3: the down-trend, confidence-0.5 enter-long decision is
rejected and downgraded to hold. -/
theorem c3_witness :
    (validate_trend_consistency c3dec (some c3ind) []).valid = false ∧
    TrendWarning.longInDowntrendLowConf c3dec.confidence
      ∈ (validate_trend_consistency c3dec (some c3ind) []).warnings ∧
    (applyTrendValidation c3dec
        (validate_trend_consistency c3dec (some c3ind) [])).signal = Signal.hold :=
  (c3_trend_consistency c3dec c3ind 10 20 (-1) [] rfl rfl rfl
      (by decide) (by decide)).1 (by norm_num) (by norm_num) rfl (by norm_num [c3dec])

/-- A `close` decision on a coin with an open position. -/
def c4close : TradingDecision :=
  { signal := .close, coin := "DOGE", quantity := 2, leverage := 3,
    take_profit_price := 0, stop_loss_price := 0,
    invalidation_condition := "n/a", confidence := 9/10, risk_usd := 0,
    justification := "take profit" }

/-- A ledger whose last three entries all carry resolved losing PnL. -/
def c4hist : List TradeRecord := [⟨some (-1)⟩, ⟨some (-2)⟩, ⟨some (-3)⟩]

/-- A complete 4h indicator set (down trend). -/
def c4ind : ExtractedIndicators :=
  { ema20_4h := some 10, ema50_4h := some 20, macd_4h := some (-1) }

/-- Counterexample to claim C4 as stated: with a ledger whose last 3 entries
are all resolved losses the breaker condition holds, yet a `close` decision is
not rejected — `validate_trend_consistency` returns `valid = true` with no
warnings, because the function returns early for every non-enter signal
before reaching the loss-streak check (`trend_validation.py` line 108), so
the breaker does not reject "any non-hold signal … close alike". -/
theorem c4_counterexample :
    lossStreakFires c4hist = true ∧
    validate_trend_consistency c4close (some c4ind) c4hist = ⟨true, []⟩ ∧
    applyTrendValidation c4close
        (validate_trend_consistency c4close (some c4ind) c4hist) = c4close := by
  refine ⟨?_, ?_, ?_⟩ <;>
    norm_num [lossStreakFires, validate_trend_consistency, applyTrendValidation,
      c4close, c4hist, c4ind, Signal.isEnter]

/-- Claim C4 (corrected).  The loss-streak breaker examines only enter
signals (`buy_to_enter`/`sell_to_enter`) with a non-empty coin and a
successfully extracted, complete indicator set: for those, if the ledger has
at least 3 entries and every one of its last 3 entries carrying a resolved
PnL is a loss, the decision is rejected regardless of confidence and
downgraded to hold.  A `close` signal is returned untouched by an early
return and is never examined by the breaker, and a 2-entry ledger never
trips it (`trend_validation.py` lines 107-109 and 187-203). -/
theorem c4_loss_streak (d : TradingDecision) (ind : ExtractedIndicators)
    (e20 e50 m4 : ℚ) (hist : List TradeRecord) :
    (d.signal.isEnter = true → d.coin ≠ "" →
      ind.ema20_4h = some e20 → ind.ema50_4h = some e50 → ind.macd_4h = some m4 →
      lossStreakFires hist = true →
        (validate_trend_consistency d (some ind) hist).valid = false ∧
        TrendWarning.threeConsecutiveLosses
          ∈ (validate_trend_consistency d (some ind) hist).warnings ∧
        (applyTrendValidation d (validate_trend_consistency d (some ind) hist)).signal
          = Signal.hold)
    ∧ (d.signal = Signal.close →
        validate_trend_consistency d (some ind) hist = ⟨true, []⟩)
    ∧ (hist.length = 2 → lossStreakFires hist = false) := by
  refine ⟨?_, ?_, ?_⟩
  · intro hne hcoin h20 h50 hm4 hstreak
    have hv : (validate_trend_consistency d (some ind) hist).valid = false ∧
        TrendWarning.threeConsecutiveLosses
          ∈ (validate_trend_consistency d (some ind) hist).warnings := by
      simp only [validate_trend_consistency, hne, if_true, hcoin, if_neg, h20, h50,
        hm4, hstreak]
      simp
    refine ⟨hv.1, hv.2, ?_⟩
    unfold applyTrendValidation
    rw [hv.1]
    simp
  · intro hsig
    simp [validate_trend_consistency, hsig, Signal.isEnter]
  · intro hlen
    simp [lossStreakFires, hlen]

/-- A high-confidence enter-long decision, to show the breaker overrides
confidence. -/
def c4dec : TradingDecision :=
  { signal := .buy_to_enter, coin := "DOGE", quantity := 5, leverage := 2,
    take_profit_price := 1/4, stop_loss_price := 1/5,
    invalidation_condition := "n/a", confidence := 9/10, risk_usd := 1,
    justification := "momentum" }

/-- Witness for C4 (amended): a confidence-0.9 enter-long after three
resolved losses is rejected and downgraded to hold. -/
theorem c4_witness :
    (validate_trend_consistency c4dec (some c4ind) c4hist).valid = false ∧
    TrendWarning.threeConsecutiveLosses
      ∈ (validate_trend_consistency c4dec (some c4ind) c4hist).warnings ∧
    (applyTrendValidation c4dec
        (validate_trend_consistency c4dec (some c4ind) c4hist)).signal
      = Signal.hold :=
  (c4_loss_streak c4dec c4ind 10 20 (-1) c4hist).1 rfl (by decide) rfl rfl rfl
    (by norm_num [lossStreakFires, c4hist])

/-! ## Execution engine (`tools/exchange_data_tool.py`) -/

/-- Round half-to-even to an integer (Python's `round` tie-breaking rule). -/
def roundHalfEven (q : ℚ) : ℤ :=
  let f := ⌊q⌋
  let r := q - f
  if r < 1/2 then f
  else if 1/2 < r then f + 1
  else if f % 2 = 0 then f else f + 1

/-- Python's `round(x, n)` on the rational model of floats. -/
def pyRound (x : ℚ) (n : ℤ) : ℚ :=
  (roundHalfEven (x * (10 : ℚ) ^ n) : ℚ) / (10 : ℚ) ^ n

/-- Python `x or y` for a possibly missing float `x`: `None` and `0` are
falsy, so `y` is used in both cases. -/
def pyOrQ (x : Option ℚ) (y : ℚ) : ℚ :=
  match x with
  | some v => if v = 0 then y else v
  | none => y

/-- Python truthiness of a possibly missing string (`None` and `""` falsy). -/
def truthyStr (s : Option String) : Bool :=
  match s with
  | some v => v ≠ ""
  | none => false

/-- Python `x or y` on optional strings. -/
def pyOrStr (x y : Option String) : Option String :=
  if truthyStr x then x else y

/-- A ccxt order dict, restricted to the fields `_resolve_order_fill` and
`execute_trade_order` read. -/
structure RawOrder where
  id : Option String := none
  orderId : Option String := none
  average : Option ℚ := none
  price : Option ℚ := none
  filled : Option ℚ := none
  amount : Option ℚ := none
deriving DecidableEq, Repr

/-- One entry of `fetch_my_trades`, as read by the VWAP aggregation. -/
structure TradeFill where
  order : Option String := none
  price : Option ℚ := none
  amount : Option ℚ := none
deriving DecidableEq, Repr

/-- A ccxt position dict as consumed by `get_positions` (`infoStopLoss` and
`infoTakeProfit` model `position['info']['stopLoss'/'takeProfit']`). -/
structure CcxtPosition where
  symbol : String
  side : String
  contracts : ℚ
  entryPrice : ℚ := 0
  markPrice : ℚ := 0
  unrealizedPnl : ℚ := 0
  percentage : ℚ := 0
  leverage : Option ℚ := none
  liquidationPrice : Option ℚ := none
  notional : Option ℚ := none
  infoStopLoss : Option ℚ := none
  infoTakeProfit : Option ℚ := none
deriving DecidableEq, Repr

/-- The per-position dict produced by `get_positions` (lines 294-309). -/
structure Position where
  symbol : String
  side : String
  size : ℚ
  entry_price : ℚ
  mark_price : ℚ
  unrealized_pnl : ℚ
  percentage : ℚ
  leverage : ℚ
  liquidation_price : ℚ
  notional : ℚ
  stop_loss_price : ℚ
  take_profit_price : ℚ
deriving DecidableEq, Repr

/-- The ccxt balance dict: `balance['total'/'free'/'used'].get('USDT', …)`;
`none` models a missing `USDT` key. -/
structure BalanceDict where
  totalUSDT : Option ℚ := none
  freeUSDT : Option ℚ := none
  usedUSDT : Option ℚ := none
deriving DecidableEq, Repr

/-- The result dict of `get_account_balance`. -/
structure AccountBalance where
  total_balance : ℚ
  free_balance : ℚ
  used_balance : ℚ
deriving DecidableEq, Repr

/-- The fields of `exchange.market(symbol)` read by `get_market_limits`;
`none` models a missing/`None` entry. -/
structure MarketInfo where
  amountMin : Option ℚ := none
  amountMax : Option ℚ := none
  costMin : Option ℚ := none
  amountPrecision : Option ℤ := none
  pricePrecision : Option ℤ := none
deriving DecidableEq, Repr

/-- Outcome of `exchange.set_leverage`: `badRequest` (ccxt.BadRequest) is
caught and only logged; `hardFailure` (any other exception) makes
`execute_trade_order` return a failure. -/
inductive SetLeverageOutcome
  | ok
  | badRequest
  | hardFailure
deriving DecidableEq, Repr

/-- The ccxt exception classes distinguished by `execute_trade_order`'s
handlers (lines 834-887). -/
inductive CcxtError
  | network
  | exchangeRejection
  | insufficientFunds
  | unknown
deriving DecidableEq, Repr

/-- The exchange behaviour visible to one `execute_trade_order` run.  The
re-fetches of `_resolve_order_fill` are indexed by retry attempt; each
ticker/balance/market/positions fetch is modelled as returning the same
outcome at every call site within the run.  An `Except.error` models the
call raising. -/
structure ExchangeEnv where
  apiKey : String
  fetchBalance : Except Unit BalanceDict
  fetchTicker : Except Unit ℚ
  loadMarket : Except Unit MarketInfo
  setLeverage : SetLeverageOutcome
  fetchPositions : Except Unit (List CcxtPosition)
  createOrder : Except CcxtError RawOrder
  fetchOrderAt : ℕ → Except Unit RawOrder
  fetchMyTradesAt : ℕ → Except Unit (List TradeFill)

/-- `get_account_balance` (lines 226-260): reads the USDT balances when an
API key is configured (with per-key defaults 10000 / 10000 / 0); returns the
defaults when no key is configured or the fetch raises — it never raises. -/
def get_account_balance (env : ExchangeEnv) : AccountBalance :=
  if env.apiKey ≠ "" then
    match env.fetchBalance with
    | .ok b => ⟨b.totalUSDT.getD 10000, b.freeUSDT.getD 10000, b.usedUSDT.getD 0⟩
    | .error _ => ⟨10000, 10000, 0⟩
  else ⟨10000, 10000, 0⟩

/-- `float(info.get(key, 0) or 0)`. -/
def infoPrice (x : Option ℚ) : ℚ := pyOrQ x 0

/-- `get_positions` (lines 262-358): with an API key, the fetched positions
with `contracts > 0` mapped to the result dict; `[]` without a key or on an
exception.  (`fetch_open_orders` is also called there but its result is never
used, so it is omitted.) -/
def get_positions (env : ExchangeEnv) : List Position :=
  if env.apiKey ≠ "" then
    match env.fetchPositions with
    | .ok ps =>
      (ps.filter fun p => 0 < p.contracts).map fun p =>
        { symbol := p.symbol, side := p.side, size := p.contracts,
          entry_price := p.entryPrice, mark_price := p.markPrice,
          unrealized_pnl := p.unrealizedPnl, percentage := p.percentage,
          leverage := p.leverage.getD 1,
          liquidation_price := p.liquidationPrice.getD 0,
          notional := p.notional.getD 0,
          stop_loss_price := infoPrice p.infoStopLoss,
          take_profit_price := infoPrice p.infoTakeProfit }
    | .error _ => []
  else []

/-- The hardcoded Bitget minimum-amount table (lines 372-380). -/
def BITGET_MIN_AMOUNTS : List (String × ℚ) :=
  [("BTC/USDT:USDT", 1/10000), ("ETH/USDT:USDT", 1/1000),
   ("SOL/USDT:USDT", 1/10), ("LTC/USDT:USDT", 1/100),
   ("SUI/USDT:USDT", 1/10), ("BGB/USDT:USDT", 1), ("DOGE/USDT:USDT", 1)]

/-- The result dict of `get_market_limits`; `max_amount = none` models
`float('inf')`. -/
structure MarketLimits where
  min_amount : ℚ
  max_amount : Option ℚ
  min_cost : ℚ
  amount_precision : ℤ
  price_precision : ℤ
deriving DecidableEq, Repr

/-- `BITGET_MIN_AMOUNTS.get(symbol, 0.1)`. -/
def fallbackMin (symbol : String) : ℚ :=
  (BITGET_MIN_AMOUNTS.lookup symbol).getD (1/10)

/-- `get_market_limits` (lines 360-412): exchange-reported limits with the
hardcoded fallback for a missing or zero minimum; fixed fallback values when
the market lookup raises. -/
def get_market_limits (env : ExchangeEnv) (symbol : String) : MarketLimits :=
  match env.loadMarket with
  | .ok m =>
    let minA :=
      match m.amountMin with
      | none => fallbackMin symbol
      | some v => if v = 0 then fallbackMin symbol else v
    { min_amount := minA, max_amount := m.amountMax,
      min_cost := m.costMin.getD 5,
      amount_precision := m.amountPrecision.getD 8,
      price_precision := m.pricePrecision.getD 8 }
  | .error _ =>
    { min_amount := fallbackMin symbol, max_amount := none, min_cost := 5,
      amount_precision := 3, price_precision := 2 }

/-- The exchange calls `_resolve_order_fill` can make, labelled by retry
attempt, in call order. -/
inductive FillCall
  | orderFetch (attempt : ℕ)
  | tradesFetch (attempt : ℕ)
  | tickerFetch
deriving DecidableEq, Repr

/-- Step 1 of one retry attempt (lines 427-433): re-fetch the order by id;
`price = fetched.average or fetched.price or price`,
`filled = fetched.filled or filled`; an exception is swallowed.  The call is
recorded when the order id is truthy. -/
def orderRefetch (env : ExchangeEnv) (orderId : Option String) (attempt : ℕ)
    (price filled : ℚ) : ℚ × ℚ × List FillCall :=
  if truthyStr orderId then
    match env.fetchOrderAt attempt with
    | .ok f =>
        (pyOrQ f.average (pyOrQ f.price price), pyOrQ f.filled filled,
          [.orderFetch attempt])
    | .error _ => (price, filled, [.orderFetch attempt])
  else (price, filled, [])

/-- Step 2 of one retry attempt (lines 435-448): if the price or the filled
quantity is still unresolved, aggregate this order's trade fills into a
volume-weighted average; `price = price or vwap`,
`filled = filled or total_qty`; an exception is swallowed. -/
def tradesAggregate (env : ExchangeEnv) (orderId : Option String)
    (attempt : ℕ) (p1 f1 : ℚ) : ℚ × ℚ × List FillCall :=
  if p1 = 0 ∨ f1 = 0 then
    match env.fetchMyTradesAt attempt with
    | .ok trades =>
      if trades ≠ [] then
        let related := trades.filter fun t => t.order == orderId
        if related ≠ [] then
          let totalQty := (related.map fun t => t.amount.getD 0).sum
          if 0 < totalQty then
            let vwap := ((related.map fun t =>
                t.price.getD 0 * t.amount.getD 0).sum) / totalQty
            (pyOrQ (some p1) vwap, pyOrQ (some f1) totalQty,
              [.tradesFetch attempt])
          else (p1, f1, [.tradesFetch attempt])
        else (p1, f1, [.tradesFetch attempt])
      else (p1, f1, [.tradesFetch attempt])
    | .error _ => (p1, f1, [.tradesFetch attempt])
  else (p1, f1, [])

/-- One attempt of the retry loop: the order re-fetch then the trade
aggregation, with the calls of both. -/
def fillAttempt (env : ExchangeEnv) (orderId : Option String) (attempt : ℕ)
    (price filled : ℚ) : ℚ × ℚ × List FillCall :=
  let s1 := orderRefetch env orderId attempt price filled
  let s2 := tradesAggregate env orderId attempt s1.1 s1.2.1
  (s2.1, s2.2.1, s1.2.2 ++ s2.2.2)

/-- The retry loop of `_resolve_order_fill` (lines 424-454), on fuel
`remaining` with the current attempt index: while the price or the filled
quantity is unresolved, run one `fillAttempt`; stop early once both are
resolved. -/
def resolveLoop (env : ExchangeEnv) (orderId : Option String) :
    ℕ → ℕ → ℚ → ℚ → ℚ × ℚ × List FillCall
  | 0, _, price, filled => (price, filled, [])
  | remaining + 1, attempt, price, filled =>
    if price ≠ 0 ∧ filled ≠ 0 then (price, filled, [])
    else
      let s := fillAttempt env orderId attempt price filled
      if s.1 ≠ 0 ∧ s.2.1 ≠ 0 then s
      else
        let rest := resolveLoop env orderId remaining (attempt + 1) s.1 s.2.1
        (rest.1, rest.2.1, s.2.2 ++ rest.2.2)

/-- `_resolve_order_fill` (lines 415-465): the initial price and filled
quantity come from the order dict itself (`average or price or 0`,
`filled or amount or 0`); then up to 3 retries of the order-refetch and
trade-aggregation fallbacks; finally the last-resort current ticker price
when the price is still unresolved.  Also returns the exchange calls made,
in order. -/
def resolve_order_fill (env : ExchangeEnv) (order : RawOrder) :
    ℚ × ℚ × List FillCall :=
  let orderId := pyOrStr order.id order.orderId
  let price0 := pyOrQ order.average (pyOrQ order.price 0)
  let filled0 := pyOrQ order.filled (pyOrQ order.amount 0)
  let r := resolveLoop env orderId 3 0 price0 filled0
  if r.1 = 0 then
    match env.fetchTicker with
    | .ok last => (last, r.2.1, r.2.2 ++ [.tickerFetch])
    | .error _ => (0, r.2.1, r.2.2 ++ [.tickerFetch])
  else r

/-- Python's `needle in hay` on strings (substring containment), as used by
the close branch's position lookup `if coin in pos['symbol']` (line 793). -/
def strContains (needle hay : String) : Bool :=
  decide (needle.toList <:+: hay.toList)

/-- The error classification of `execute_trade_order`'s failure results; each
constructor stands for one family of the source's error-message strings. -/
inductive ExecError
  | belowMinInsufficientFunds
  | adjustFailed
  | setLeverageFailed
  | missingTriggers
  | insufficientFunds
  | positionNotFound
  | network
  | exchangeRejection
  | insufficientFundsEx
  | unknown
deriving DecidableEq, Repr

/-- How the outer exception handlers (lines 834-887) classify a ccxt error
raised by `create_order`. -/
def classifyCcxt : CcxtError → ExecError
  | .network => .network
  | .exchangeRejection => .exchangeRejection
  | .insufficientFunds => .insufficientFundsEx
  | .unknown => .unknown

/-- The result dict of `execute_trade_order`. -/
structure ExecResult where
  success : Bool
  order_id : Option String
  side : Option String
  quantity : ℚ
  price : ℚ
  amount : Option ℚ
  error : Option ExecError
  simulated : Bool
deriving DecidableEq, Repr

/-- One `exchange.create_order` call: entry orders carry the preset
stop-loss/take-profit trigger params, close orders are reduce-only. -/
structure OrderSubmission where
  symbol : String
  orderSide : String
  amount : ℚ
  reduceOnly : Bool
  presetStopLoss : Option ℚ
  presetTakeProfit : Option ℚ
deriving DecidableEq, Repr

/-- The failure result shape shared by all error returns (lines 485-493 and
analogues). -/
def failResult (e : ExecError) : ExecResult :=
  { success := false, order_id := none, side := none, quantity := 0, price := 0,
    amount := none, error := some e, simulated := false }

/-- `max_affordable_quantity = (available * 0.95 * leverage) / current_price`
(line 725). -/
def maxAffordable (available leverage price : ℚ) : ℚ :=
  available * (95/100) * leverage / price

/-- Lines 538-579 of `execute_trade_order`: an enter quantity below the
exchange minimum is raised to the minimum when the free balance covers
`min_amount × price / leverage`, fails otherwise; a raised ticker fetch also
fails the step.  `Except.error` carries the early-returned failure result. -/
def minQuantityStep (env : ExchangeEnv) (d : TradingDecision)
    (ml : MarketLimits) : Except ExecResult ℚ :=
  if d.quantity < ml.min_amount ∧ d.signal.isEnter then
    match env.fetchTicker with
    | .ok last =>
      if ml.min_amount * last / d.leverage ≤ (get_account_balance env).free_balance
      then .ok ml.min_amount
      else .error (failResult .belowMinInsufficientFunds)
    | .error _ => .error (failResult .adjustFailed)
  else .ok d.quantity

/-- Lines 708-749 of `execute_trade_order`: the final funds check for enter
signals.  When the free balance is below the required margin plus the 5%
buffer, the quantity is scaled down to `round(maxAffordable, precision)` if
that still clears the exchange minimum, and the step fails otherwise; a
raised ticker fetch skips the check ("资金检查失败，继续执行"). -/
def fundsCheckStep (env : ExchangeEnv) (d : TradingDecision)
    (ml : MarketLimits) (q1 : ℚ) : Except ExecResult ℚ :=
  if d.signal.isEnter then
    match env.fetchTicker with
    | .ok last =>
      if (get_account_balance env).free_balance < q1 * last / d.leverage * (105/100)
      then
        if ml.min_amount ≤
            maxAffordable (get_account_balance env).free_balance d.leverage last
        then .ok (pyRound
            (maxAffordable (get_account_balance env).free_balance d.leverage last)
            ml.amount_precision)
        else .error (failResult .insufficientFunds)
      else .ok q1
    | .error _ => .ok q1
  else .ok q1

/-- Lines 751-830 of `execute_trade_order`: create the order and resolve its
fill.  Enter orders carry the preset trigger params; a close looks up the
first position whose symbol contains the coin and submits a reduce-only
order of the full position size in the opposite direction, failing with a
not-found classification when there is none. -/
def submitStep (env : ExchangeEnv) (d : TradingDecision) (symbol : String)
    (slParam tpParam : Option ℚ) (q2 : ℚ) : ExecResult × List OrderSubmission :=
  if d.signal = .buy_to_enter then
    let sub : OrderSubmission := ⟨symbol, "buy", q2, false, slParam, tpParam⟩
    match env.createOrder with
    | .ok order =>
      let fr := resolve_order_fill env order
      ({ success := true, order_id := order.id, side := some "long",
         quantity := q2, price := fr.1, amount := some fr.2.1,
         error := none, simulated := false }, [sub])
    | .error e => (failResult (classifyCcxt e), [sub])
  else if d.signal = .sell_to_enter then
    let sub : OrderSubmission := ⟨symbol, "sell", q2, false, slParam, tpParam⟩
    match env.createOrder with
    | .ok order =>
      let fr := resolve_order_fill env order
      ({ success := true, order_id := order.id, side := some "short",
         quantity := q2, price := fr.1, amount := some fr.2.1,
         error := none, simulated := false }, [sub])
    | .error e => (failResult (classifyCcxt e), [sub])
  else
    match (get_positions env).find? (fun p => strContains d.coin p.symbol) with
    | some pos =>
      let sub : OrderSubmission :=
        ⟨symbol, if pos.side = "long" then "sell" else "buy", pos.size,
          true, none, none⟩
      match env.createOrder with
      | .ok order =>
        let fr := resolve_order_fill env order
        ({ success := true, order_id := order.id, side := some pos.side,
           quantity := pos.size, price := fr.1, amount := some fr.2.1,
           error := none, simulated := false }, [sub])
      | .error e => (failResult (classifyCcxt e), [sub])
    | none =>
      ({ success := false, order_id := none, side := some "close",
         quantity := 0, price := 0, amount := none,
         error := some .positionNotFound, simulated := false }, [])

/-- `execute_trade_order` (lines 467-887).  The input is the decision dict;
the required-field and valid-signal guards (lines 479-513) cannot fail on
this structured input and are omitted, and the timestamped simulated order
ids are abbreviated to the constants `"dry_run"` / `"mock"`.
`set_position_mode` swallows every exception (lines 636-644) and is omitted;
`set_leverage` fails the call only on a non-BadRequest exception when
`leverage > 1` (lines 646-664).  Returns the result dict together with the
list of orders submitted to the exchange. -/
def execute_trade_order (env : ExchangeEnv) (d : TradingDecision)
    (dryRun : Bool) : ExecResult × List OrderSubmission :=
  if d.signal = .hold then
    ({ success := true, order_id := none, side := some "hold", quantity := 0,
       price := 0, amount := none, error := none, simulated := dryRun }, [])
  else
    let symbol := d.coin ++ "/USDT:USDT"
    let ml := get_market_limits env symbol
    match minQuantityStep env d ml with
    | .error r => (r, [])
    | .ok q0 =>
      let q1 := pyRound q0 ml.amount_precision
      if dryRun then
        match env.fetchTicker with
        | .ok last =>
          ({ success := true, order_id := some "dry_run", side := some d.signal.str,
             quantity := q1, price := last, amount := some q1, error := none,
             simulated := true }, [])
        | .error _ =>
          ({ success := true, order_id := some "dry_run", side := some d.signal.str,
             quantity := q1, price := 0, amount := some q1, error := none,
             simulated := true }, [])
      else if env.apiKey = "" then
        ({ success := true, order_id := some "mock", side := some d.signal.str,
           quantity := q1, price := 0, amount := none, error := none,
           simulated := true }, [])
      else if 1 < d.leverage ∧ env.setLeverage = .hardFailure then
        (failResult .setLeverageFailed, [])
      else if d.signal.isEnter ∧
          (d.stop_loss_price ≤ 0 ∨ d.take_profit_price ≤ 0) then
        (failResult .missingTriggers, [])
      else
        let slParam := if 0 < d.stop_loss_price then some d.stop_loss_price else none
        let tpParam := if 0 < d.take_profit_price then some d.take_profit_price else none
        match fundsCheckStep env d ml q1 with
        | .error r => (r, [])
        | .ok q2 => submitStep env d symbol slParam tpParam q2

/-- A failing `minQuantityStep` early-returns one of the failure results. -/
theorem minQuantityStep_error (env : ExchangeEnv) (d : TradingDecision)
    (ml : MarketLimits) (r : ExecResult)
    (h : minQuantityStep env d ml = Except.error r) : ∃ e, r = failResult e := by
  unfold minQuantityStep at h
  split_ifs at h with hc
  · split at h
    · split_ifs at h with h2
      exact ⟨_, (Except.error.inj h).symm⟩
    · exact ⟨_, (Except.error.inj h).symm⟩

/-- A failing `fundsCheckStep` early-returns one of the failure results. -/
theorem fundsCheckStep_error (env : ExchangeEnv) (d : TradingDecision)
    (ml : MarketLimits) (q1 : ℚ) (r : ExecResult)
    (h : fundsCheckStep env d ml q1 = Except.error r) : ∃ e, r = failResult e := by
  unfold fundsCheckStep at h
  split_ifs at h with hc
  · split at h
    · split_ifs at h with h2 h3
      exact ⟨_, (Except.error.inj h).symm⟩
    · exact absurd h (by simp)

/-- Claim C1 (corrected).  On the live path — `dry_run = False` and an API
key configured — an enter decision with a non-positive stop-loss or
take-profit trigger always yields a failure result and submits no order;
but the trigger check sits after the dry-run and no-API-key early returns
(lines 584-632 before lines 668-686), so in those modes the engine returns a
simulated success without refusing. -/
theorem c1_live_trigger_refusal (env : ExchangeEnv) (d : TradingDecision)
    (hent : d.signal.isEnter = true)
    (htrig : d.stop_loss_price ≤ 0 ∨ d.take_profit_price ≤ 0)
    (hkey : env.apiKey ≠ "") :
    (execute_trade_order env d false).1.success = false ∧
    (execute_trade_order env d false).2 = [] := by
  have hnh : ¬ d.signal = Signal.hold := by
    intro h; rw [h] at hent; exact absurd hent (by decide)
  simp only [execute_trade_order]
  rw [if_neg hnh]
  rcases hms : minQuantityStep env d
      (get_market_limits env (d.coin ++ "/USDT:USDT")) with r | q0
  · simp only [hms]
    obtain ⟨e, rfl⟩ := minQuantityStep_error env d _ r hms
    exact ⟨rfl, trivial⟩
  · simp only [hms]
    rw [if_neg (show ¬ ((false : Bool) = true) by decide)]
    rw [if_neg hkey]
    by_cases hsl : 1 < d.leverage ∧ env.setLeverage = SetLeverageOutcome.hardFailure
    · rw [if_pos hsl]
      exact ⟨rfl, rfl⟩
    · rw [if_neg hsl]
      rw [if_pos ⟨hent, htrig⟩]
      exact ⟨rfl, rfl⟩

/-- An enter decision lacking both trigger prices. -/
def c1dec : TradingDecision :=
  { signal := .buy_to_enter, coin := "BTC", quantity := 1, leverage := 2,
    take_profit_price := 0, stop_loss_price := 0,
    invalidation_condition := "n/a", confidence := 1/2, risk_usd := 0,
    justification := "no brackets" }

/-- An exchange with an API key configured, a live ticker, and no reported
market limits (so the hardcoded minimum table applies). -/
def c1env : ExchangeEnv :=
  { apiKey := "key", fetchBalance := .ok {}, fetchTicker := .ok 50000,
    loadMarket := .error (), setLeverage := .ok, fetchPositions := .ok [],
    createOrder := .error .unknown, fetchOrderAt := fun _ => .error (),
    fetchMyTradesAt := fun _ => .error () }

/-- Counterexample to claim C1 as stated: with `dry_run = True`, a
`buy_to_enter` decision whose stop-loss and take-profit are both 0 is NOT
refused — `execute_trade_order` returns a simulated success, because the
dry-run early return (lines 584-619) precedes the mandatory-trigger check
(lines 668-686).  So the refusal does not hold "for every value of the
dry_run flag". -/
theorem c1_counterexample :
    c1dec.signal.isEnter = true ∧ c1dec.stop_loss_price ≤ 0 ∧
    (execute_trade_order c1env c1dec true).1.success = true ∧
    (execute_trade_order c1env c1dec true).1.simulated = true := by
  have hsym : "BTC" ++ "/USDT:USDT" = "BTC/USDT:USDT" := rfl
  refine ⟨rfl, le_refl 0, ?_, ?_⟩ <;>
    norm_num [execute_trade_order, minQuantityStep, get_market_limits,
      fallbackMin, BITGET_MIN_AMOUNTS, get_account_balance, pyRound,
      roundHalfEven, Signal.isEnter, c1env, c1dec, hsym, List.lookup] <;>
    decide

/-- Witness for C1 (amended): on the live path the same decision is refused
with no order submitted. -/
theorem c1_witness :
    (execute_trade_order c1env c1dec false).1.success = false ∧
    (execute_trade_order c1env c1dec false).2 = [] :=
  c1_live_trigger_refusal c1env c1dec rfl (Or.inl (le_refl 0)) (by decide)

/-- On the live path (not dry-run, API key set, leverage setup not failing,
triggers accepted), `execute_trade_order` runs the minimum-quantity step, the
precision rounding, the funds check and then submits. -/
theorem execute_live_run (env : ExchangeEnv) (d : TradingDecision)
    (hnh : ¬ d.signal = Signal.hold)
    (hkey : env.apiKey ≠ "")
    (hlev : ¬ (1 < d.leverage ∧ env.setLeverage = SetLeverageOutcome.hardFailure))
    (htrig : ¬ (d.signal.isEnter = true ∧
      (d.stop_loss_price ≤ 0 ∨ d.take_profit_price ≤ 0)))
    (q0 q2 : ℚ)
    (hms : minQuantityStep env d
      (get_market_limits env (d.coin ++ "/USDT:USDT")) = Except.ok q0)
    (hfc : fundsCheckStep env d (get_market_limits env (d.coin ++ "/USDT:USDT"))
      (pyRound q0 (get_market_limits env (d.coin ++ "/USDT:USDT")).amount_precision)
      = Except.ok q2) :
    execute_trade_order env d false =
      submitStep env d (d.coin ++ "/USDT:USDT")
        (if 0 < d.stop_loss_price then some d.stop_loss_price else none)
        (if 0 < d.take_profit_price then some d.take_profit_price else none) q2 := by
  simp only [execute_trade_order]
  rw [if_neg hnh]
  simp only [hms]
  rw [if_neg (by decide : ¬ ((false : Bool) = true))]
  rw [if_neg hkey, if_neg hlev, if_neg htrig]
  simp only [hfc]

/-- On the live path, a failing funds check is returned as-is with no order
submitted. -/
theorem execute_live_funds_error (env : ExchangeEnv) (d : TradingDecision)
    (hnh : ¬ d.signal = Signal.hold)
    (hkey : env.apiKey ≠ "")
    (hlev : ¬ (1 < d.leverage ∧ env.setLeverage = SetLeverageOutcome.hardFailure))
    (htrig : ¬ (d.signal.isEnter = true ∧
      (d.stop_loss_price ≤ 0 ∨ d.take_profit_price ≤ 0)))
    (q0 : ℚ) (r : ExecResult)
    (hms : minQuantityStep env d
      (get_market_limits env (d.coin ++ "/USDT:USDT")) = Except.ok q0)
    (hfc : fundsCheckStep env d (get_market_limits env (d.coin ++ "/USDT:USDT"))
      (pyRound q0 (get_market_limits env (d.coin ++ "/USDT:USDT")).amount_precision)
      = Except.error r) :
    execute_trade_order env d false = (r, []) := by
  simp only [execute_trade_order]
  rw [if_neg hnh]
  simp only [hms]
  rw [if_neg (by decide : ¬ ((false : Bool) = true))]
  rw [if_neg hkey, if_neg hlev, if_neg htrig]
  simp only [hfc]

/-- An enter submission sends exactly one order, whose amount is the resolved
quantity. -/
theorem submitStep_enter_amounts (env : ExchangeEnv) (d : TradingDecision)
    (symbol : String) (slP tpP : Option ℚ) (q2 : ℚ)
    (hent : d.signal.isEnter = true) :
    (submitStep env d symbol slP tpP q2).2.map OrderSubmission.amount = [q2] := by
  unfold submitStep
  cases hs : d.signal with
  | buy_to_enter =>
    rw [if_pos rfl]
    rcases hco : env.createOrder with e | o <;> simp [hco]
  | sell_to_enter =>
    rw [if_neg (by decide), if_pos rfl]
    rcases hco : env.createOrder with e | o <;> simp [hco]
  | hold => rw [hs] at hent; exact absurd hent (by decide)
  | close => rw [hs] at hent; exact absurd hent (by decide)


/-- Claim C6 (confirmed).  For an enter decision on the live path whose
required margin at the current price (after precision rounding), plus the 5%
buffer, exceeds the free balance: when
`maxAffordable = available × 0.95 × leverage / price` still clears the
exchange minimum, the single submitted order carries exactly
`round(maxAffordable, precision)` as its quantity; otherwise the call fails
and no order is submitted (lines 708-749). -/
theorem c6_funds_scaling (env : ExchangeEnv) (d : TradingDecision) (last : ℚ)
    (hent : d.signal.isEnter = true)
    (hkey : env.apiKey ≠ "")
    (hlev : ¬ (1 < d.leverage ∧ env.setLeverage = SetLeverageOutcome.hardFailure))
    (htp : 0 < d.take_profit_price) (hsl : 0 < d.stop_loss_price)
    (hticker : env.fetchTicker = Except.ok last)
    (hmin : ¬ d.quantity <
      (get_market_limits env (d.coin ++ "/USDT:USDT")).min_amount)
    (hinsuff : (get_account_balance env).free_balance <
      pyRound d.quantity
          (get_market_limits env (d.coin ++ "/USDT:USDT")).amount_precision
        * last / d.leverage * (105/100)) :
    ((get_market_limits env (d.coin ++ "/USDT:USDT")).min_amount ≤
        maxAffordable (get_account_balance env).free_balance d.leverage last →
      (execute_trade_order env d false).2.map OrderSubmission.amount =
        [pyRound
          (maxAffordable (get_account_balance env).free_balance d.leverage last)
          (get_market_limits env (d.coin ++ "/USDT:USDT")).amount_precision])
    ∧ (maxAffordable (get_account_balance env).free_balance d.leverage last <
        (get_market_limits env (d.coin ++ "/USDT:USDT")).min_amount →
      (execute_trade_order env d false).1.success = false ∧
      (execute_trade_order env d false).2 = []) := by
  have hnh : ¬ d.signal = Signal.hold := by
    intro h; rw [h] at hent; exact absurd hent (by decide)
  have htrig : ¬ (d.signal.isEnter = true ∧
      (d.stop_loss_price ≤ 0 ∨ d.take_profit_price ≤ 0)) := by
    rintro ⟨-, h | h⟩
    · exact absurd h (not_le.mpr hsl)
    · exact absurd h (not_le.mpr htp)
  have hms : minQuantityStep env d
      (get_market_limits env (d.coin ++ "/USDT:USDT")) = Except.ok d.quantity := by
    unfold minQuantityStep
    rw [if_neg (fun hc => hmin hc.1)]
  constructor
  · intro hge
    have hfc : fundsCheckStep env d
        (get_market_limits env (d.coin ++ "/USDT:USDT"))
        (pyRound d.quantity
          (get_market_limits env (d.coin ++ "/USDT:USDT")).amount_precision) =
        Except.ok (pyRound
          (maxAffordable (get_account_balance env).free_balance d.leverage last)
          (get_market_limits env (d.coin ++ "/USDT:USDT")).amount_precision) := by
      simp only [fundsCheckStep, hent, if_true, hticker]
      rw [if_pos hinsuff, if_pos hge]
    rw [execute_live_run env d hnh hkey hlev htrig d.quantity _ hms hfc]
    exact submitStep_enter_amounts env d _ _ _ _ hent
  · intro hlt2
    have hfc : fundsCheckStep env d
        (get_market_limits env (d.coin ++ "/USDT:USDT"))
        (pyRound d.quantity
          (get_market_limits env (d.coin ++ "/USDT:USDT")).amount_precision) =
        Except.error (failResult ExecError.insufficientFunds) := by
      simp only [fundsCheckStep, hent, if_true, hticker]
      rw [if_pos hinsuff, if_neg (not_le.mpr hlt2)]
    rw [execute_live_funds_error env d hnh hkey hlev htrig d.quantity _ hms hfc]
    exact ⟨rfl, rfl⟩


/-- The spec scenario decision: quantity 100 at price $100 with leverage 5. -/
def c6dec : TradingDecision :=
  { signal := .buy_to_enter, coin := "SOL", quantity := 100, leverage := 5,
    take_profit_price := 110, stop_loss_price := 90,
    invalidation_condition := "n/a", confidence := 3/4, risk_usd := 100,
    justification := "buy" }

/-- The spec scenario exchange: $1000 free balance, SOL at $100, no reported
limits (hardcoded minimum 0.1, precision 3). -/
def c6env : ExchangeEnv :=
  { apiKey := "key", fetchBalance := .ok ⟨some 1000, some 1000, some 0⟩,
    fetchTicker := .ok 100, loadMarket := .error (), setLeverage := .ok,
    fetchPositions := .ok [],
    createOrder := .ok { id := some "oid", average := some 100, filled := some (95/2) },
    fetchOrderAt := fun _ => .error (), fetchMyTradesAt := fun _ => .error () }

/-- Witness for C6, at the spec scenario: balance $1000, price $100,
leverage 5, requested quantity 100 (margin $2000 needed) — the submitted
quantity is exactly 47.5 = 95/2 (within "at most 47.5"). -/
theorem c6_witness :
    (execute_trade_order c6env c6dec false).2.map OrderSubmission.amount =
      [(95 : ℚ)/2] := by
  have hml : get_market_limits c6env ("SOL" ++ "/USDT:USDT") =
      { min_amount := 1/10, max_amount := none, min_cost := 5,
        amount_precision := 3, price_precision := 2 } := rfl
  have hbal : get_account_balance c6env =
      { total_balance := 1000, free_balance := 1000, used_balance := 0 } := rfl
  have h := (c6_funds_scaling c6env c6dec 100 rfl (by decide)
      (by rintro ⟨-, h⟩; simp [c6env] at h)
      (by norm_num [c6dec]) (by norm_num [c6dec]) rfl
      (by simp only [c6dec]; rw [hml]; norm_num)
      (by simp only [c6dec]; rw [hml, hbal]; norm_num [pyRound, roundHalfEven])).1
      (by simp only [c6dec]; rw [hml, hbal]; norm_num [maxAffordable])
  rw [h]
  simp only [c6dec]
  rw [hml, hbal]
  norm_num [maxAffordable, pyRound, roundHalfEven]


/-- Claim C8 (confirmed).  On the live path, a close decision for a coin
with no open position returns `success = false` with the not-found error
classification and submits no order; and a successful close's `side` is the
closed position's original direction (lines 788-829). -/
theorem c8_close_handling (env : ExchangeEnv) (d : TradingDecision)
    (hsig : d.signal = Signal.close) (hkey : env.apiKey ≠ "")
    (hlev : ¬ (1 < d.leverage ∧ env.setLeverage = SetLeverageOutcome.hardFailure)) :
    ((get_positions env).find? (fun p => strContains d.coin p.symbol) = none →
      (execute_trade_order env d false).1 =
        { success := false, order_id := none, side := some "close", quantity := 0,
          price := 0, amount := none, error := some ExecError.positionNotFound,
          simulated := false } ∧
      (execute_trade_order env d false).2 = [])
    ∧ (∀ pos order,
        (get_positions env).find? (fun p => strContains d.coin p.symbol) = some pos →
        env.createOrder = Except.ok order →
        (execute_trade_order env d false).1.success = true ∧
        (execute_trade_order env d false).1.side = some pos.side) := by
  have hne : d.signal.isEnter = false := by rw [hsig]; rfl
  have hnh : ¬ d.signal = Signal.hold := by simp [hsig]
  have htrig : ¬ (d.signal.isEnter = true ∧
      (d.stop_loss_price ≤ 0 ∨ d.take_profit_price ≤ 0)) := by
    rintro ⟨hc, -⟩
    rw [hne] at hc
    exact Bool.noConfusion hc
  have hms : minQuantityStep env d
      (get_market_limits env (d.coin ++ "/USDT:USDT")) = Except.ok d.quantity := by
    unfold minQuantityStep
    rw [if_neg]
    rintro ⟨-, hc⟩
    rw [hne] at hc
    exact Bool.noConfusion hc
  have hfc : fundsCheckStep env d (get_market_limits env (d.coin ++ "/USDT:USDT"))
      (pyRound d.quantity
        (get_market_limits env (d.coin ++ "/USDT:USDT")).amount_precision) =
      Except.ok (pyRound d.quantity
        (get_market_limits env (d.coin ++ "/USDT:USDT")).amount_precision) := by
    unfold fundsCheckStep
    rw [hne]
    rw [if_neg (by decide : ¬ ((false : Bool) = true))]
  have hrun := execute_live_run env d hnh hkey hlev htrig d.quantity _ hms hfc
  constructor
  · intro hfind
    rw [hrun]
    unfold submitStep
    simp only [hsig]
    rw [if_neg (by decide), if_neg (by decide)]
    simp only [hfind]
    constructor <;> (first | rfl | trivial)
  · intro pos order hfind hco
    rw [hrun]
    unfold submitStep
    simp only [hsig]
    rw [if_neg (by decide), if_neg (by decide)]
    simp only [hfind, hco]
    constructor <;> (first | rfl | trivial)


/-- A close decision on a coin without an open position. -/
def c8dec : TradingDecision :=
  { signal := .close, coin := "BTC", quantity := 0, leverage := 1,
    take_profit_price := 0, stop_loss_price := 0,
    invalidation_condition := "n/a", confidence := 1/2, risk_usd := 0,
    justification := "close it" }

/-- An exchange with an API key and no open positions. -/
def c8env : ExchangeEnv :=
  { apiKey := "key", fetchBalance := .ok {}, fetchTicker := .ok 100,
    loadMarket := .error (), setLeverage := .ok, fetchPositions := .ok [],
    createOrder := .error .unknown, fetchOrderAt := fun _ => .error (),
    fetchMyTradesAt := fun _ => .error () }

/-- Witness for C8: closing BTC with no open position fails with the
not-found classification and no order submitted. -/
theorem c8_witness :
    (execute_trade_order c8env c8dec false).1 =
      { success := false, order_id := none, side := some "close", quantity := 0,
        price := 0, amount := none, error := some ExecError.positionNotFound,
        simulated := false } ∧
    (execute_trade_order c8env c8dec false).2 = [] :=
  (c8_close_handling c8env c8dec rfl (by decide)
      (by rintro ⟨h, -⟩; norm_num [c8dec] at h)).1 rfl

/-- Claim C10 (confirmed).  `get_account_balance` never raises, and when no
API key is configured or the balance fetch raises, it returns the defaults
total = 10000, free = 10000, used = 0 — a failed balance read makes the
account appear fully funded downstream (lines 226-260). -/
theorem c10_default_balance (env : ExchangeEnv)
    (h : env.apiKey = "" ∨ env.fetchBalance = Except.error ()) :
    get_account_balance env =
      { total_balance := 10000, free_balance := 10000, used_balance := 0 } := by
  unfold get_account_balance
  rcases h with h | h
  · rw [if_neg (by simp [h])]
  · split_ifs with hk
    · rw [h]
    · rfl

/-- An exchange whose balance fetch raises. -/
def c10env : ExchangeEnv :=
  { apiKey := "key", fetchBalance := .error (), fetchTicker := .error (),
    loadMarket := .error (), setLeverage := .ok, fetchPositions := .error (),
    createOrder := .error .network, fetchOrderAt := fun _ => .error (),
    fetchMyTradesAt := fun _ => .error () }

/-- Witness for C10: a raising balance fetch yields the 10000/10000/0
defaults. -/
theorem c10_witness :
    get_account_balance c10env =
      { total_balance := 10000, free_balance := 10000, used_balance := 0 } :=
  c10_default_balance c10env (Or.inr rfl)

/-- `x or y` is truthy when `y` is. -/
theorem pyOrQ_ne_zero (x : Option ℚ) (y : ℚ) (hy : y ≠ 0) : pyOrQ x y ≠ 0 := by
  cases x with
  | none => simpa [pyOrQ] using hy
  | some v =>
    by_cases h : v = 0
    · simpa [pyOrQ, h] using hy
    · simpa [pyOrQ, h] using h

/-- The order re-fetch never zeroes a resolved price. -/
theorem orderRefetch_price_ne (env : ExchangeEnv) (oid : Option String)
    (att : ℕ) (p f : ℚ) (hp : p ≠ 0) :
    (orderRefetch env oid att p f).1 ≠ 0 := by
  unfold orderRefetch
  split_ifs with h1
  · rcases ho : env.fetchOrderAt att with e | o <;> simp only [ho]
    · exact hp
    · exact pyOrQ_ne_zero _ _ (pyOrQ_ne_zero _ _ hp)
  · exact hp

/-- The trade aggregation never zeroes a resolved price (`price = price or vwap`). -/
theorem tradesAggregate_price_ne (env : ExchangeEnv) (oid : Option String)
    (att : ℕ) (p1 f1 : ℚ) (hp : p1 ≠ 0) :
    (tradesAggregate env oid att p1 f1).1 ≠ 0 := by
  unfold tradesAggregate
  split_ifs with h1
  · rcases ht : env.fetchMyTradesAt att with e | trades <;> simp only [ht]
    · exact hp
    · split_ifs with h2 h3 h4
      · simpa [pyOrQ, hp] using hp
      · exact hp
      · exact hp
      · exact hp
  · exact hp

/-- One retry attempt never zeroes a resolved price. -/
theorem fillAttempt_price_ne (env : ExchangeEnv) (oid : Option String)
    (att : ℕ) (p f : ℚ) (hp : p ≠ 0) : (fillAttempt env oid att p f).1 ≠ 0 := by
  unfold fillAttempt
  exact tradesAggregate_price_ne env oid att _ _ (orderRefetch_price_ne env oid att p f hp)

/-- The order re-fetch makes at most the order-fetch call of its attempt. -/
theorem orderRefetch_calls (env : ExchangeEnv) (oid : Option String)
    (att : ℕ) (p f : ℚ) (c : FillCall)
    (hc : c ∈ (orderRefetch env oid att p f).2.2) : c = FillCall.orderFetch att := by
  unfold orderRefetch at hc
  split_ifs at hc with h1
  · rcases ho : env.fetchOrderAt att with e | o <;> rw [ho] at hc <;>
      simpa using hc
  · simp at hc

/-- The trade aggregation makes at most the trades-fetch call of its attempt. -/
theorem tradesAggregate_calls (env : ExchangeEnv) (oid : Option String)
    (att : ℕ) (p1 f1 : ℚ) (c : FillCall)
    (hc : c ∈ (tradesAggregate env oid att p1 f1).2.2) :
    c = FillCall.tradesFetch att := by
  unfold tradesAggregate at hc
  split_ifs at hc with h1
  · rcases ht : env.fetchMyTradesAt att with e | trades <;> simp only [ht] at hc
    · simpa using hc
    · split_ifs at hc with h2 h3 h4 <;> simpa using hc
  · simp at hc

/-- One retry attempt calls only the order fetch and trades fetch of its own
attempt index. -/
theorem fillAttempt_calls (env : ExchangeEnv) (oid : Option String)
    (att : ℕ) (p f : ℚ) (c : FillCall)
    (hc : c ∈ (fillAttempt env oid att p f).2.2) :
    c = FillCall.orderFetch att ∨ c = FillCall.tradesFetch att := by
  unfold fillAttempt at hc
  rcases List.mem_append.mp hc with h | h
  · exact Or.inl (orderRefetch_calls env oid att p f c h)
  · exact Or.inr (tradesAggregate_calls env oid att _ _ c h)


/-- The retry loop exits immediately (no calls) when both the price and the
filled quantity are already resolved. -/
theorem resolveLoop_resolved (env : ExchangeEnv) (oid : Option String)
    (fuel att : ℕ) (p f : ℚ) (hp : p ≠ 0) (hf : f ≠ 0) :
    resolveLoop env oid fuel att p f = (p, f, []) := by
  cases fuel with
  | zero => rfl
  | succ m =>
    simp only [resolveLoop]
    rw [if_pos ⟨hp, hf⟩]

/-- The retry loop never zeroes a resolved price. -/
theorem resolveLoop_price_ne (env : ExchangeEnv) (oid : Option String)
    (fuel : ℕ) : ∀ (att : ℕ) (p f : ℚ), p ≠ 0 →
      (resolveLoop env oid fuel att p f).1 ≠ 0 := by
  induction fuel with
  | zero => intro att p f hp; exact hp
  | succ m ih =>
    intro att p f hp
    simp only [resolveLoop]
    split_ifs with h1 h2
    · exact hp
    · exact h2.1
    · exact ih (att + 1) _ _ (fillAttempt_price_ne env oid att p f hp)

/-- Every call the retry loop makes belongs to an attempt index within its
fuel window. -/
theorem resolveLoop_calls (env : ExchangeEnv) (oid : Option String)
    (fuel : ℕ) : ∀ (att : ℕ) (p f : ℚ) (c : FillCall),
      c ∈ (resolveLoop env oid fuel att p f).2.2 →
      ∃ n, att ≤ n ∧ n < att + fuel ∧
        (c = FillCall.orderFetch n ∨ c = FillCall.tradesFetch n) := by
  induction fuel with
  | zero => intro att p f c hc; simp [resolveLoop] at hc
  | succ m ih =>
    intro att p f c hc
    simp only [resolveLoop] at hc
    split_ifs at hc with h1 h2
    · simp at hc
    · exact ⟨att, le_refl att, by omega, fillAttempt_calls env oid att p f c hc⟩
    · rcases List.mem_append.mp hc with h | h
      · exact ⟨att, le_refl att, by omega, fillAttempt_calls env oid att p f c h⟩
      · obtain ⟨n, hn1, hn2, hn3⟩ := ih (att + 1) _ _ c h
        exact ⟨n, by omega, by omega, hn3⟩

/-- Claim C7 (corrected).  What does hold of `_resolve_order_fill`: when
`order.average` is present (truthy) and the order also reports its filled
quantity, the average is used exactly as the resolved price and no fallback
call (re-fetch, trade aggregation, or ticker) is made; whenever
`order.average` is present the last-resort ticker fallback is never invoked;
and the pre-ticker fallbacks are retried for at most 3 attempts.  But when
the order's filled quantity is unknown, the retry loop still runs and a
re-fetched average may replace the original (lines 415-465). -/
theorem c7_fill_resolution (env : ExchangeEnv) (order : RawOrder) (a f : ℚ) :
    (order.average = some a → a ≠ 0 → order.filled = some f → f ≠ 0 →
      resolve_order_fill env order = (a, f, []))
    ∧ (order.average = some a → a ≠ 0 →
      FillCall.tickerFetch ∉ (resolve_order_fill env order).2.2)
    ∧ (∀ n, (FillCall.orderFetch n ∈ (resolve_order_fill env order).2.2 ∨
        FillCall.tradesFetch n ∈ (resolve_order_fill env order).2.2) → n < 3) := by
  refine ⟨?_, ?_, ?_⟩
  · intro ha hane hf hfne
    have e1 : pyOrQ order.average (pyOrQ order.price 0) = a := by
      rw [ha]; simp [pyOrQ, hane]
    have e2 : pyOrQ order.filled (pyOrQ order.amount 0) = f := by
      rw [hf]; simp [pyOrQ, hfne]
    simp only [resolve_order_fill, e1, e2]
    rw [resolveLoop_resolved env _ 3 0 a f hane hfne]
    rw [if_neg hane]
  · intro ha hane hmem
    have hpne : pyOrQ order.average (pyOrQ order.price 0) ≠ 0 := by
      rw [ha]; simp [pyOrQ, hane]
    simp only [resolve_order_fill] at hmem
    rw [if_neg (resolveLoop_price_ne env (pyOrStr order.id order.orderId) 3 0
      _ _ hpne)] at hmem
    obtain ⟨n, -, -, h3⟩ := resolveLoop_calls env _ 3 0 _ _ _ hmem
    rcases h3 with h | h <;> exact FillCall.noConfusion h
  · intro n hn
    simp only [resolve_order_fill] at hn
    rcases hn with hn | hn <;>
    · split_ifs at hn with h0
      · rcases ht : env.fetchTicker with e | last <;> simp only [ht] at hn <;>
        · rcases List.mem_append.mp hn with h | h
          · obtain ⟨n2, hn1, hn2, h3⟩ := resolveLoop_calls env _ 3 0 _ _ _ h
            rcases h3 with h | h
            all_goals first
              | (obtain rfl := (FillCall.orderFetch.inj h); omega)
              | (obtain rfl := (FillCall.tradesFetch.inj h); omega)
              | exact FillCall.noConfusion h
          · simp at h
      · obtain ⟨n2, hn1, hn2, h3⟩ := resolveLoop_calls env _ 3 0 _ _ _ hn
        rcases h3 with h | h
        all_goals first
          | (obtain rfl := (FillCall.orderFetch.inj h); omega)
          | (obtain rfl := (FillCall.tradesFetch.inj h); omega)
          | exact FillCall.noConfusion h


/-- An order reporting an average price of 100 but no filled quantity. -/
def c7order : RawOrder :=
  { id := some "o1", average := some 100 }

/-- An order reporting both its average price and its filled quantity. -/
def c7orderFull : RawOrder :=
  { id := some "o1", average := some 100, filled := some 5 }

/-- An exchange whose order re-fetch reports average 99 and filled 5. -/
def c7env1 : ExchangeEnv :=
  { apiKey := "key", fetchBalance := .ok {}, fetchTicker := .ok 101,
    loadMarket := .error (), setLeverage := .ok, fetchPositions := .ok [],
    createOrder := .error .unknown,
    fetchOrderAt := fun _ => .ok { average := some 99, filled := some 5 },
    fetchMyTradesAt := fun _ => .error () }

/-- An exchange whose order re-fetch raises but whose trade list carries a
fill of this order. -/
def c7env2 : ExchangeEnv :=
  { apiKey := "key", fetchBalance := .ok {}, fetchTicker := .ok 101,
    loadMarket := .error (), setLeverage := .ok, fetchPositions := .ok [],
    createOrder := .error .unknown,
    fetchOrderAt := fun _ => .error (),
    fetchMyTradesAt := fun _ =>
      .ok [{ order := some "o1", price := some 98, amount := some 5 }] }

/-- Counterexample to claim C7 as stated: for an order with
`average = 100` but an unknown filled quantity, the retry loop still runs —
the re-fetched order's average 99 REPLACES the original 100 as the resolved
price (so the present average is not "used exactly"), and with the re-fetch
failing, the trade-aggregation fallback IS invoked.  The loop runs whenever
`price == 0 or not filled` (line 425), not only when the average is absent. -/
theorem c7_counterexample :
    c7order.average = some 100 ∧
    (resolve_order_fill c7env1 c7order).1 = 99 ∧
    FillCall.tradesFetch 0 ∈ (resolve_order_fill c7env2 c7order).2.2 := by
  have he1 : pyOrStr (some "o1") none = some "o1" := rfl
  have he3 : truthyStr (some "o1") = true := rfl
  have he4 : ((some "o1" : Option String) == some "o1") = true := rfl
  refine ⟨rfl, ?_, ?_⟩ <;>
    norm_num [resolve_order_fill, resolveLoop, fillAttempt, orderRefetch,
      tradesAggregate, pyOrQ, c7order, c7env1, c7env2, he1, he3, he4,
      List.filter]

/-- Witness for C7 (amended): an order with average 100 and filled 5 resolves
to exactly (100, 5) with no fallback calls. -/
theorem c7_witness :
    resolve_order_fill c7env1 c7orderFull = (100, 5, []) :=
  (c7_fill_resolution c7env1 c7orderFull 100 5).1 rfl (by norm_num) rfl (by norm_num)

/-! ## Market-data aggregation (`get_market_data`, lines 75-224) -/

/-- The payload of a successful per-coin fetch: the ticker price plus the
rendered report section.  The candle frames, indicators and
`format_coin_data` rendering (pandas/vectorbt, out of the core scope) are
abstracted into the `formatted` field. -/
structure CoinData where
  current_price : ℚ
  formatted : String
deriving DecidableEq, Repr

/-- One `_fetch_coin_data` result dict: either a success record or the
failure record built from a raised exception (lines 145-162). -/
inductive CoinResult
  | ok (coin : String) (data : CoinData)
  | fail (coin : String) (err : String)
deriving DecidableEq, Repr

/-- `result['coin']`. -/
def CoinResult.coin : CoinResult → String
  | .ok c _ => c
  | .fail c _ => c

/-- `_fetch_coin_data` (lines 75-162): the per-coin fetch-and-compute
sequence, with any raised exception wrapped into a failure record rather
than propagated. -/
def fetchCoinData (fetch : String → Except String CoinData) (coin : String) :
    CoinResult :=
  match fetch coin with
  | .ok d => .ok coin d
  | .error e => .fail coin e

/-- The sort key `coins.index(x['coin'])` (line 198). -/
def coinKey (coins : List String) (r : CoinResult) : ℕ := coins.indexOf r.coin

/-- Line 198: `coin_results.sort(key=lambda x: coins.index(x['coin']))`.
Python's stable sort is modelled by insertion sort; on the distinct keys of
the theorems below every sort agrees. -/
def sortResults (coins : List String) (rs : List CoinResult) : List CoinResult :=
  List.insertionSort (fun a b => coinKey coins a ≤ coinKey coins b) rs

/-- One coin's section of the formatted report: the rendered data for a
success, the error line of line 218 for a failure. -/
def renderSection : CoinResult → String
  | .ok _ d => d.formatted
  | .fail c e => "### 获取 " ++ c ++ " 数据时出错: " ++ e ++ "\n\n---\n"

/-- `get_market_data` (lines 165-224): the concurrent fetches deliver
`collected` in completion order (an arbitrary permutation, constrained in
the theorems); the results are re-sorted into the caller-supplied coin
order, and the formatted report plus the structured result dict (an
insertion-ordered dict, modelled as an association list) are built from the
sorted list. -/
def get_market_data (coins : List String) (collected : List CoinResult) :
    String × List (String × CoinResult) :=
  let sorted := sortResults coins collected
  (String.join (sorted.map renderSection), sorted.map (fun r => (r.coin, r)))

/-- A fetch result carries its own coin name. -/
theorem fetchCoinData_coin (fetch : String → Except String CoinData)
    (c : String) : (fetchCoinData fetch c).coin = c := by
  unfold fetchCoinData
  cases h : fetch c <;> rfl

/-- In a duplicate-free list, `indexOf` is strictly increasing along the
list. -/
theorem pairwise_indexOf_lt (l : List String) (h : l.Nodup) :
    List.Pairwise (fun a b => l.indexOf a < l.indexOf b) l := by
  rw [List.pairwise_iff_getElem]
  intro i j hi hj hij
  rw [List.indexOf_getElem h i hi, List.indexOf_getElem h j hj]
  exact hij

/-- Sorting any permutation of the per-coin results by caller-order index
restores exactly the caller-ordered list, when the coins are distinct. -/
theorem sortResults_perm_eq (coins : List String)
    (fetch : String → Except String CoinData) (collected : List CoinResult)
    (hnodup : coins.Nodup)
    (hperm : collected.Perm (coins.map (fetchCoinData fetch))) :
    sortResults coins collected = coins.map (fetchCoinData fetch) := by
  set key := coinKey coins with hkey
  set lt := fun a b : CoinResult => key a < key b with hlt
  set le := fun a b : CoinResult => key a ≤ key b with hle
  haveI : IsTotal CoinResult le := ⟨fun a b => le_total (key a) (key b)⟩
  haveI : IsTrans CoinResult le := ⟨fun a b c hab hbc => le_trans hab hbc⟩
  haveI : IsAntisymm CoinResult lt :=
    ⟨fun a b h1 h2 => absurd (lt_trans h1 h2) (lt_irrefl _)⟩
  have hcanon : List.Pairwise lt (coins.map (fetchCoinData fetch)) := by
    rw [List.pairwise_map]
    refine (pairwise_indexOf_lt coins hnodup).imp ?_
    intro a b hab
    simpa [hlt, hkey, coinKey, fetchCoinData_coin] using hab
  have hperm2 : (sortResults coins collected).Perm
      (coins.map (fetchCoinData fetch)) :=
    (List.perm_insertionSort le collected).trans hperm
  have hsortedle : List.Sorted le (sortResults coins collected) :=
    List.sorted_insertionSort le collected
  have hkeysnodup : (List.map key (sortResults coins collected)).Nodup := by
    have h2 : List.Pairwise (fun a b : ℕ => a < b)
        (List.map key (coins.map (fetchCoinData fetch))) :=
      List.pairwise_map.mpr hcanon
    have h1 : (List.map key (coins.map (fetchCoinData fetch))).Nodup :=
      h2.imp fun hab => ne_of_lt hab
    exact ((hperm2.map key).nodup_iff).mpr h1
  have hsortedlt : List.Sorted lt (sortResults coins collected) := by
    have hne : List.Pairwise (fun a b => key a ≠ key b)
        (sortResults coins collected) := List.pairwise_map.mp hkeysnodup
    exact (hsortedle.and hne).imp fun hab => lt_of_le_of_ne hab.1 hab.2
  exact List.eq_of_perm_of_sorted hperm2 hsortedlt hcanon


/-- Claim C9 (confirmed).  For every duplicate-free list of requested coins:
whatever completion order the concurrent fetches deliver, `get_market_data`
returns the same output — the structured result map lists each coin's own
fetch result in caller-supplied coin order (hence so do the formatted
sections, built from the same sorted list) — and a coin whose fetch raised
contributes its failure entry in its position without affecting the other
coins' entries (no abort, no retry). -/
theorem c9_order_and_isolation (coins : List String)
    (fetch : String → Except String CoinData) (collected : List CoinResult)
    (hnodup : coins.Nodup)
    (hperm : collected.Perm (coins.map (fetchCoinData fetch))) :
    get_market_data coins collected =
      get_market_data coins (coins.map (fetchCoinData fetch))
    ∧ (get_market_data coins collected).2 =
        coins.map (fun c => (c, fetchCoinData fetch c))
    ∧ (∀ c e, c ∈ coins → fetch c = Except.error e →
        (c, CoinResult.fail c e) ∈ (get_market_data coins collected).2) := by
  have hs := sortResults_perm_eq coins fetch collected hnodup hperm
  have hs2 : sortResults coins (coins.map (fetchCoinData fetch)) =
      coins.map (fetchCoinData fetch) :=
    sortResults_perm_eq coins fetch _ hnodup (List.Perm.refl _)
  have h2 : (get_market_data coins collected).2 =
      coins.map (fun c => (c, fetchCoinData fetch c)) := by
    simp only [get_market_data]
    rw [hs, List.map_map]
    refine List.map_congr_left ?_
    intro c hc
    simp [Function.comp, fetchCoinData_coin]
  refine ⟨?_, h2, ?_⟩
  · simp only [get_market_data]
    rw [hs, hs2]
  · intro c e hc hfe
    rw [h2]
    refine List.mem_map.mpr ⟨c, hc, ?_⟩
    simp [fetchCoinData, hfe]

/-- A fetch in which BTC raises and every other coin succeeds. -/
def c9fetch : String → Except String CoinData :=
  fun c => if c = "BTC" then .error "boom" else .ok ⟨1, "section-" ++ c⟩

/-- Two requested coins. -/
def c9coins : List String := ["BTC", "ETH"]

/-- The two fetch results arriving in reversed completion order. -/
def c9collected : List CoinResult :=
  [fetchCoinData c9fetch "ETH", fetchCoinData c9fetch "BTC"]

/-- Witness for C9: with completion order reversed, the structured results
still list BTC's failure entry first and ETH's success second. -/
theorem c9_witness :
    (get_market_data c9coins c9collected).2 =
      [("BTC", CoinResult.fail "BTC" "boom"),
       ("ETH", CoinResult.ok "ETH" ⟨1, "section-ETH"⟩)] := by
  have h := (c9_order_and_isolation c9coins c9fetch c9collected (by decide)
      (List.Perm.swap _ _ _)).2.1
  rw [h]
  rfl

end MoneyAgent
